import Mathlib

/-!
Verification of the conversation/connection management layer of the Unison
peer-to-peer chat client (src/src/App.vue, script section).

The embedding models the component state (refs declared at the top of the
script) as a record `AppState`, and each script function / transport event
handler as a state transformer.  JavaScript string truthiness (`''` is falsy)
is modelled explicitly; the JS object `connections` keyed by peer id is
modelled as the list of registered keys (the handles themselves are opaque:
their only observable uses are key lookup and `send`, the latter recorded in
an outbound transcript `sent`).  `setTimeout(cb, 3000)` scheduling is modelled
by appending the delay to `pendingTimeouts`; the timer firing is a separate
operation that clears the error message.  Calls to `peer.connect(remoteId)`
are recorded in the transcript `connectCalls`.  Conversation ids produced by
`uuidv4()` enter as explicit `freshId` parameters.
-/

/-- A chat message: `{ sender: string; content: string }` from the
`Conversation` interface in App.vue. -/
structure Message where
  sender : String
  content : String
deriving Repr, DecidableEq

/-- A conversation record, from the `Conversation` interface in App.vue. -/
structure Conversation where
  id : String
  title : String
  peerId : String
  messages : List Message
deriving Repr, DecidableEq

/-- The reactive state of the App.vue component (the `ref`s of the script),
together with transcripts of the externally observable transport calls. -/
structure AppState where
  peerId : String
  remotePeerId : String
  message : String
  conversations : List Conversation
  activeConversationId : Option String
  connections : List String
  errorMessage : String
  pendingTimeouts : List Nat
  connectCalls : List String
  sent : List (String × String)
deriving Repr, DecidableEq

/-- The component's initial state: every string ref starts `''`, the lists
start empty, `activeConversationId` starts `null`. -/
def initialState : AppState :=
  { peerId := ""
    remotePeerId := ""
    message := ""
    conversations := []
    activeConversationId := none
    connections := []
    errorMessage := ""
    pendingTimeouts := []
    connectCalls := []
    sent := [] }

/-- JavaScript truthiness of a `string | null` value: `null` and `''` are
falsy, every other string is truthy. -/
def truthy : Option String → Bool
  | none => false
  | some x => x != ""

/-- The `activeConversation` computed property:
`conversations.find(c => c.id === activeConversationId) || null`. -/
def activeConversation (s : AppState) : Option Conversation :=
  s.conversations.find? (fun c => some c.id == s.activeConversationId)

/-- `connections.value[key] = conn` on a JS object: registers the key; a
key already present is overwritten in place (the key set is unchanged). -/
def registerConn (conns : List String) (p : String) : List String :=
  if conns.contains p then conns else conns ++ [p]

/-- Mutation through a `find` result in JS: the first element satisfying the
predicate is replaced by its image under `f`; if none matches, the list is
unchanged. -/
def applyToFirst (cs : List Conversation) (p : Conversation → Bool)
    (f : Conversation → Conversation) : List Conversation :=
  match cs with
  | [] => []
  | c :: rest => if p c then f c :: rest else c :: applyToFirst rest p f

/-- `setupConnection(conn)` (App.vue lines 49-58): registers the handle under
`conn.peer`, appends a new conversation with a fresh uuid, title
`` `Chat with ${conn.peer.substring(0, 6)}...` ``, peerId `conn.peer` and no
messages, and activates it.  `connPeer` is `conn.peer`; `freshId` is the
`uuidv4()` result. -/
def setupConnection (s : AppState) (connPeer : String) (freshId : String) :
    AppState :=
  { s with
    connections := registerConn s.connections connPeer
    conversations := s.conversations ++
      [{ id := freshId
         title := "Chat with " ++ connPeer.take 6 ++ "..."
         peerId := connPeer
         messages := [] }]
    activeConversationId := some freshId }

/-- The `data` handler installed by `setupConnection` (App.vue lines 60-65):
find the conversation whose `peerId` equals the sender, and if found push
`{ sender: 'Remote', content: data }` onto its messages; otherwise do
nothing. -/
def inboundData (s : AppState) (fromPeer : String) (data : String) : AppState :=
  { s with
    conversations := applyToFirst s.conversations
      (fun c => c.peerId == fromPeer)
      (fun c => { c with
        messages := c.messages ++ [{ sender := "Remote", content := data }] }) }

/-- `connect()` (App.vue lines 37-47).  After mount `peer.value` is non-null,
so the outer guard reduces to the truthiness of `remotePeerId`.  A
self-connection sets the error message and schedules a 3000 ms timeout that
will clear it; otherwise `peer.connect(remotePeerId)` is called (recorded in
`connectCalls`; the returned handle has `conn.peer = remotePeerId`) and
`setupConnection` runs immediately on the returned handle. -/
def connect (s : AppState) (freshId : String) : AppState :=
  if s.remotePeerId ≠ "" then
    if s.remotePeerId = s.peerId then
      { s with
        errorMessage := "You can't connect to yourself!"
        pendingTimeouts := s.pendingTimeouts ++ [3000] }
    else
      setupConnection
        { s with connectCalls := s.connectCalls ++ [s.remotePeerId] }
        s.remotePeerId freshId
  else s

/-- `sendMessage()` (App.vue lines 68-75).  The JS guard is
`activeConversationId && connections[activeConversation!.peerId] && message`:
if `activeConversationId` is truthy but no conversation has that id,
`activeConversation` is `null` and the field access throws a TypeError,
modelled as `none`.  Otherwise, when a handle is registered for the active
conversation's peerId and the buffer is non-empty, `conn.send(message)` runs
(recorded in `sent`), `{ sender: 'You', content: message }` is pushed onto the
active conversation's messages, and the buffer is cleared. -/
def sendMessage (s : AppState) : Option AppState :=
  if truthy s.activeConversationId then
    match activeConversation s with
    | none => none
    | some conv =>
      if s.connections.contains conv.peerId then
        if s.message != "" then
          some { s with
            sent := s.sent ++ [(conv.peerId, s.message)]
            conversations := applyToFirst s.conversations
              (fun c => some c.id == s.activeConversationId)
              (fun c => { c with
                messages := c.messages ++
                  [{ sender := "You", content := s.message }] })
            message := "" }
        else some s
      else some s
  else some s

/-- `newConversation()` (App.vue lines 81-84): clears the connect-target
input and deactivates the current conversation. -/
def newConversation (s : AppState) : AppState :=
  { s with remotePeerId := "", activeConversationId := none }

/-- Removal through `findIndex` + `splice(index, 1)`: deletes the first
conversation whose id matches; an absent id leaves the list unchanged. -/
def removeFirst (cs : List Conversation) (cid : String) : List Conversation :=
  match cs with
  | [] => []
  | c :: rest => if c.id == cid then rest else c :: removeFirst rest cid

/-- `deleteConversation(id)` (App.vue lines 86-94): if some conversation has
the given id (`findIndex` is not `-1`), splice it out; when the deleted
conversation was active, activate the first remaining conversation, or none
when the list became empty. -/
def deleteConversation (s : AppState) (cid : String) : AppState :=
  if s.conversations.any (fun c => c.id == cid) then
    if s.activeConversationId = some cid then
      { s with
        conversations := removeFirst s.conversations cid
        activeConversationId :=
          match removeFirst s.conversations cid with
          | [] => none
          | c :: _ => some c.id }
    else { s with conversations := removeFirst s.conversations cid }
  else s

/-- `renameConversation(id, newTitle)` (App.vue lines 96-101): in-place title
mutation of the first conversation with the given id, if any. -/
def renameConversation (s : AppState) (cid : String) (newTitle : String) :
    AppState :=
  { s with
    conversations := applyToFirst s.conversations
      (fun c => c.id == cid)
      (fun c => { c with title := newTitle }) }

/-- The `peer.on('open', id => peerId.value = id)` handler (App.vue lines
29-31). -/
def peerOpen (s : AppState) (pid : String) : AppState :=
  { s with peerId := pid }

/-- The per-handle transport readiness event (`open` on a DataConnection).
App.vue registers no handler for it, so the event leaves the component state
unchanged. -/
def handleOpen (s : AppState) (_connPeer : String) : AppState := s

/-- A scheduled `setTimeout` firing: the only scheduled callback in App.vue
is `() => { errorMessage.value = '' }` from `connect`. -/
def fireTimeout (s : AppState) : AppState :=
  match s.pendingTimeouts with
  | [] => s
  | _ :: rest => { s with errorMessage := "", pendingTimeouts := rest }

/-- The operations that can hit the component state: user actions dispatched
from the template and transport/timer events. -/
inductive Op where
  | peerOpenEv (pid : String)
  | connectClick (freshId : String)
  | inboundConn (connPeer : String) (freshId : String)
  | handleOpenEv (connPeer : String)
  | sendClick
  | newChatClick
  | deleteClick (cid : String)
  | renameEv (cid : String) (newTitle : String)
  | dataEv (fromPeer : String) (data : String)
  | setRemoteInput (r : String)
  | setMessageInput (m : String)
  | timerFire
deriving Repr, DecidableEq

/-- One step of the event loop: every handler runs to completion; `none`
models the uncaught TypeError reachable inside `sendMessage`. -/
def step (s : AppState) : Op → Option AppState
  | .peerOpenEv pid => some (peerOpen s pid)
  | .connectClick freshId => some (connect s freshId)
  | .inboundConn connPeer freshId => some (setupConnection s connPeer freshId)
  | .handleOpenEv connPeer => some (handleOpen s connPeer)
  | .sendClick => sendMessage s
  | .newChatClick => some (newConversation s)
  | .deleteClick cid => some (deleteConversation s cid)
  | .renameEv cid t => some (renameConversation s cid t)
  | .dataEv fromPeer d => some (inboundData s fromPeer d)
  | .setRemoteInput r => some { s with remotePeerId := r }
  | .setMessageInput m => some { s with message := m }
  | .timerFire => some (fireTimeout s)

/-- Run a sequence of operations from a state. -/
def run (s : AppState) : List Op → Option AppState
  | [] => some s
  | op :: ops =>
    match step s op with
    | none => none
    | some s' => run s' ops

/-- The invariant of claim C1: `activeConversationId` is `null` or the id of
some conversation currently in the list. -/
def activeValid (s : AppState) : Bool :=
  match s.activeConversationId with
  | none => true
  | some cid => s.conversations.any (fun c => c.id == cid)

/-- The peerIds of the open conversations, in list order. -/
def convPeerIds (s : AppState) : List String :=
  s.conversations.map Conversation.peerId

/-- An operation is a fresh setup in state `s` when it is not a connection
setup for a peer that already has an open conversation. -/
def setupFresh (s : AppState) : Op → Bool
  | .inboundConn connPeer _ => !((convPeerIds s).contains connPeer)
  | .connectClick _ => !((convPeerIds s).contains s.remotePeerId)
  | _ => true

/-- Run a sequence of operations, stopping (with `none`) when an operation
is a connection setup for a peer that already has an open conversation. -/
def runFresh (s : AppState) : List Op → Option AppState
  | [] => some s
  | op :: ops =>
    if setupFresh s op then
      match step s op with
      | none => none
      | some s' => runFresh s' ops
    else none

/-- A post-mount state with an assigned local id and a connect target typed
into the form. -/
def connDemoState : AppState :=
  { initialState with peerId := "A1", remotePeerId := "B2" }

/-- A post-mount state where the typed connect target equals the local id. -/
def selfDemoState : AppState :=
  { initialState with peerId := "A1", remotePeerId := "A1" }

/-- A conversation open with peer B2, as created by `setupConnection`. -/
def convB : Conversation :=
  { id := "u1", title := "Chat with B2...", peerId := "B2", messages := [] }

/-- A state with one active conversation with peer B2, a registered handle
for B2, and a composed message. -/
def stateB : AppState :=
  { initialState with
    conversations := [convB]
    activeConversationId := some "u1"
    connections := ["B2"]
    message := "Hello" }

/-- Like `stateB` but with no handle registered for B2. -/
def stateBNoConn : AppState :=
  { stateB with connections := [] }

example :
    run initialState [Op.inboundConn "B2peerX" "u1"] =
      some { initialState with
        connections := ["B2peerX"]
        conversations := [{ id := "u1", title := "Chat with B2peer...",
                            peerId := "B2peerX", messages := [] }]
        activeConversationId := some "u1" } := by decide

/-! ## Helper lemmas about the list operations -/

lemma applyToFirst_map {β : Type} (g : Conversation → β) (p : Conversation → Bool)
    (f : Conversation → Conversation) (hf : ∀ c, g (f c) = g c)
    (cs : List Conversation) : (applyToFirst cs p f).map g = cs.map g := by
  induction cs with
  | nil => rfl
  | cons c rest ih =>
    simp only [applyToFirst]
    split
    · simp [hf]
    · simp [ih]

lemma removeFirst_sublist (cs : List Conversation) (cid : String) :
    List.Sublist (removeFirst cs cid) cs := by
  induction cs with
  | nil => simp [removeFirst]
  | cons c rest ih =>
    simp only [removeFirst]
    split
    · exact List.sublist_cons_self c rest
    · exact List.Sublist.cons₂ c ih

lemma mem_removeFirst (x : Conversation) (cs : List Conversation) (cid : String)
    (hx : x ∈ cs) (hne : x.id ≠ cid) : x ∈ removeFirst cs cid := by
  induction cs with
  | nil => cases hx
  | cons c rest ih =>
    simp only [removeFirst]
    rcases List.mem_cons.mp hx with h | h
    · subst h
      split
      · rename_i hcid
        exact absurd (beq_iff_eq.mp hcid) hne
      · exact List.mem_cons_self x _
    · split
      · exact h
      · exact List.mem_cons_of_mem _ (ih h)

lemma removeFirst_any (cs : List Conversation) (cid a : String) (hne : a ≠ cid)
    (h : cs.any (fun c => c.id == a) = true) :
    (removeFirst cs cid).any (fun c => c.id == a) = true := by
  rcases List.any_eq_true.mp h with ⟨x, hx, hpx⟩
  have hxa : x.id = a := beq_iff_eq.mp hpx
  exact List.any_eq_true.mpr
    ⟨x, mem_removeFirst x cs cid hx (by rw [hxa]; exact hne), hpx⟩

lemma any_id_of_map {β : Type} [BEq β] (g : Conversation → β)
    (cs : List Conversation) (a : β) :
    cs.any (fun c => g c == a) = (cs.map g).any (fun x => x == a) := by
  induction cs with
  | nil => rfl
  | cons c rest ih => simp [ih]

lemma any_id_congr (cs cs' : List Conversation)
    (hmap : cs'.map Conversation.id = cs.map Conversation.id) (a : String) :
    cs'.any (fun c => c.id == a) = cs.any (fun c => c.id == a) := by
  rw [any_id_of_map Conversation.id cs' a, any_id_of_map Conversation.id cs a,
    hmap]

/-! ## The activeConversationId validity invariant -/

lemma sendMessage_frame (s s' : AppState) (h : sendMessage s = some s') :
    s'.activeConversationId = s.activeConversationId ∧
    s'.connections = s.connections ∧
    s'.conversations.map Conversation.id = s.conversations.map Conversation.id ∧
    s'.conversations.map Conversation.peerId =
      s.conversations.map Conversation.peerId := by
  unfold sendMessage at h
  split at h
  · split at h
    · exact absurd h (by simp)
    · split at h
      · split at h
        · injection h with h
          subst h
          refine ⟨rfl, rfl, applyToFirst_map _ _ _ ?_ _,
            applyToFirst_map _ _ _ ?_ _⟩ <;> intro c <;> rfl
        · injection h with h
          subst h
          exact ⟨rfl, rfl, rfl, rfl⟩
      · injection h with h
        subst h
        exact ⟨rfl, rfl, rfl, rfl⟩
  · injection h with h
    subst h
    exact ⟨rfl, rfl, rfl, rfl⟩

lemma activeValid_of_frame (s s' : AppState)
    (ha : s'.activeConversationId = s.activeConversationId)
    (hm : s'.conversations.map Conversation.id = s.conversations.map Conversation.id)
    (hv : activeValid s = true) : activeValid s' = true := by
  unfold activeValid at hv ⊢
  rw [ha]
  cases hac : s.activeConversationId with
  | none => rfl
  | some cid =>
    rw [hac] at hv
    have hv' : s.conversations.any (fun c => c.id == cid) = true := hv
    show s'.conversations.any (fun c => c.id == cid) = true
    rw [any_id_congr _ _ hm]
    exact hv'

lemma setupConnection_activeValid (s : AppState) (p fid : String) :
    activeValid (setupConnection s p fid) = true := by
  simp [activeValid, setupConnection, List.any_append]

lemma step_activeValid (s : AppState) (op : Op) (s' : AppState)
    (hv : activeValid s = true) (h : step s op = some s') :
    activeValid s' = true := by
  cases op with
  | peerOpenEv pid =>
    injection h with h; subst h; exact hv
  | connectClick fid =>
    injection h with h
    subst h
    unfold connect
    split
    · split
      · exact hv
      · exact setupConnection_activeValid _ _ _
    · exact hv
  | inboundConn p fid =>
    injection h with h; subst h; exact setupConnection_activeValid _ _ _
  | handleOpenEv p =>
    injection h with h; subst h; exact hv
  | sendClick =>
    obtain ⟨ha, _, hm, _⟩ := sendMessage_frame s s' h
    exact activeValid_of_frame s s' ha hm hv
  | newChatClick =>
    injection h with h; subst h; simp [activeValid, newConversation]
  | deleteClick cid =>
    injection h with h
    subst h
    unfold deleteConversation
    split
    · split
      · rename_i hact
        unfold activeValid
        cases hrem : removeFirst s.conversations cid with
        | nil => simp
        | cons c rest => simp
      · rename_i hact
        unfold activeValid at hv ⊢
        cases hac : s.activeConversationId with
        | none => rfl
        | some a =>
          rw [hac] at hv
          have hane : a ≠ cid := by
            intro hcontra
            exact hact (by rw [hac, hcontra])
          exact removeFirst_any s.conversations cid a hane hv
    · exact hv
  | renameEv cid t =>
    injection h with h
    subst h
    refine activeValid_of_frame s _ rfl (applyToFirst_map _ _ _ ?_ _) hv
    intro c
    rfl
  | dataEv p d =>
    injection h with h
    subst h
    refine activeValid_of_frame s _ rfl (applyToFirst_map _ _ _ ?_ _) hv
    intro c
    rfl
  | setRemoteInput r =>
    injection h with h; subst h; exact hv
  | setMessageInput m =>
    injection h with h; subst h; exact hv
  | timerFire =>
    injection h with h
    subst h
    unfold fireTimeout
    cases hpt : s.pendingTimeouts with
    | nil => exact hv
    | cons d rest => exact hv

lemma run_activeValid (ops : List Op) : ∀ s s' : AppState,
    activeValid s = true → run s ops = some s' → activeValid s' = true := by
  induction ops with
  | nil =>
    intro s s' hv h
    unfold run at h
    injection h with h
    subst h
    exact hv
  | cons op ops ih =>
    intro s s' hv h
    unfold run at h
    cases hstep : step s op with
    | none => rw [hstep] at h; exact absurd h (by simp)
    | some s1 =>
      rw [hstep] at h
      exact ih s1 s' (step_activeValid s op s1 hv hstep) h

/-! ## Decomposition lemmas for find / first-match update / first-match removal -/

lemma find_first_of_split (p : Conversation → Bool) (l1 l2 : List Conversation)
    (conv : Conversation) (h1 : ∀ c ∈ l1, p c = false) (hc : p conv = true) :
    (l1 ++ conv :: l2).find? p = some conv := by
  induction l1 with
  | nil => simp [List.find?_cons_of_pos, hc]
  | cons c rest ih =>
    have hcf : p c = false := h1 c (List.mem_cons_self c rest)
    rw [List.cons_append, List.find?_cons_of_neg _ (by simp [hcf])]
    exact ih (fun x hx => h1 x (List.mem_cons_of_mem c hx))

lemma applyToFirst_split (p : Conversation → Bool) (f : Conversation → Conversation)
    (l1 l2 : List Conversation) (conv : Conversation)
    (h1 : ∀ c ∈ l1, p c = false) (hc : p conv = true) :
    applyToFirst (l1 ++ conv :: l2) p f = l1 ++ f conv :: l2 := by
  induction l1 with
  | nil => simp [applyToFirst, hc]
  | cons c rest ih =>
    have hcf : p c = false := h1 c (List.mem_cons_self c rest)
    simp only [List.cons_append, applyToFirst, hcf]
    simp [ih (fun x hx => h1 x (List.mem_cons_of_mem c hx))]

lemma applyToFirst_no_match (p : Conversation → Bool) (f : Conversation → Conversation)
    (cs : List Conversation) (h : ∀ c ∈ cs, p c = false) :
    applyToFirst cs p f = cs := by
  induction cs with
  | nil => rfl
  | cons c rest ih =>
    have hcf : p c = false := h c (List.mem_cons_self c rest)
    simp only [applyToFirst, hcf]
    simp [ih (fun x hx => h x (List.mem_cons_of_mem c hx))]

lemma removeFirst_split (l1 l2 : List Conversation) (conv : Conversation)
    (cid : String) (h1 : ∀ c ∈ l1, c.id ≠ cid) (hc : conv.id = cid) :
    removeFirst (l1 ++ conv :: l2) cid = l1 ++ l2 := by
  induction l1 with
  | nil => simp [removeFirst, hc]
  | cons c rest ih =>
    have hcf : (c.id == cid) = false := by
      simpa using h1 c (List.mem_cons_self c rest)
    simp only [List.cons_append, removeFirst, hcf]
    simp [ih (fun x hx => h1 x (List.mem_cons_of_mem c hx))]

/-! ## peerId uniqueness machinery -/

lemma setupConnection_peerIds (s : AppState) (p fid : String) :
    convPeerIds (setupConnection s p fid) = convPeerIds s ++ [p] := by
  simp [convPeerIds, setupConnection]

lemma nodup_append_singleton {l : List String} {p : String}
    (hnd : l.Nodup) (hp : p ∉ l) : (l ++ [p]).Nodup := by
  simp [List.nodup_append, hnd, hp]

lemma nodup_of_map_eq {cs cs' : List Conversation}
    (hmap : cs'.map Conversation.peerId = cs.map Conversation.peerId)
    (hnd : (cs.map Conversation.peerId).Nodup) :
    (cs'.map Conversation.peerId).Nodup := by
  rw [hmap]
  exact hnd

lemma step_peerIds_nodup (s : AppState) (op : Op) (s' : AppState)
    (hnd : (convPeerIds s).Nodup) (hfresh : setupFresh s op = true)
    (h : step s op = some s') : (convPeerIds s').Nodup := by
  cases op with
  | peerOpenEv pid =>
    injection h with h; subst h; exact hnd
  | connectClick fid =>
    injection h with h
    subst h
    have hmem : s.remotePeerId ∉ convPeerIds s := by
      intro hmem
      simp [setupFresh, List.elem_iff, hmem] at hfresh
    unfold connect
    split
    · split
      · exact hnd
      · rw [setupConnection_peerIds]
        exact nodup_append_singleton hnd hmem
    · exact hnd
  | inboundConn p fid =>
    injection h with h
    subst h
    have hmem : p ∉ convPeerIds s := by
      intro hmem
      simp [setupFresh, List.elem_iff, hmem] at hfresh
    rw [setupConnection_peerIds]
    exact nodup_append_singleton hnd hmem
  | handleOpenEv p =>
    injection h with h; subst h; exact hnd
  | sendClick =>
    obtain ⟨_, _, _, hm⟩ := sendMessage_frame s s' h
    exact nodup_of_map_eq hm hnd
  | newChatClick =>
    injection h with h; subst h; exact hnd
  | deleteClick cid =>
    injection h with h
    subst h
    unfold deleteConversation
    have hsub : ((removeFirst s.conversations cid).map Conversation.peerId).Sublist
        (s.conversations.map Conversation.peerId) :=
      List.Sublist.map _ (removeFirst_sublist s.conversations cid)
    split
    · split
      · exact List.Nodup.sublist hsub hnd
      · exact List.Nodup.sublist hsub hnd
    · exact hnd
  | renameEv cid t =>
    injection h with h
    subst h
    refine nodup_of_map_eq (applyToFirst_map _ _ _ ?_ _) hnd
    intro c
    rfl
  | dataEv p d =>
    injection h with h
    subst h
    refine nodup_of_map_eq (applyToFirst_map _ _ _ ?_ _) hnd
    intro c
    rfl
  | setRemoteInput r =>
    injection h with h; subst h; exact hnd
  | setMessageInput m =>
    injection h with h; subst h; exact hnd
  | timerFire =>
    injection h with h
    subst h
    unfold fireTimeout
    cases hpt : s.pendingTimeouts with
    | nil => exact hnd
    | cons d rest => exact hnd

lemma runFresh_nodup (ops : List Op) : ∀ s s' : AppState,
    (convPeerIds s).Nodup → runFresh s ops = some s' →
    (convPeerIds s').Nodup := by
  induction ops with
  | nil =>
    intro s s' hnd h
    unfold runFresh at h
    injection h with h
    subst h
    exact hnd
  | cons op ops ih =>
    intro s s' hnd h
    unfold runFresh at h
    split at h
    · rename_i hfresh
      cases hstep : step s op with
      | none => rw [hstep] at h; exact absurd h (by simp)
      | some s1 =>
        rw [hstep] at h
        exact ih s1 s' (step_peerIds_nodup s op s1 hnd hfresh hstep) h
    · exact absurd h (by simp)

/-! ## Claim theorems -/

/-- C1: for every sequence of operations (connection setup, connect, send,
new-conversation, delete, rename, inbound data, plus input/timer events)
executed from the empty initial state, `activeConversationId` is always
either `null` or the id of a conversation currently present in the list. -/
theorem active_id_valid_from_init (ops : List Op) (s' : AppState)
    (h : run initialState ops = some s') : activeValid s' = true :=
  run_activeValid ops initialState s' (by rfl) h

/-- Witness for C1: a trace that opens a conversation with B2 and then
deletes it ends in a state satisfying the invariant. -/
theorem active_id_valid_from_init_w :
    activeValid
      (deleteConversation (setupConnection initialState "B2" "u1") "u1") =
      true :=
  active_id_valid_from_init [Op.inboundConn "B2" "u1", Op.deleteClick "u1"] _
    (by rfl)

/-- C9: an inbound connection from remote peer P creates exactly one new
conversation, appended to the list, with peerId P, no messages, and title
`"Chat with "` followed by the first 6 characters of P followed by `"..."`;
that conversation becomes active immediately. -/
theorem inbound_connection_creates_conversation (s : AppState) (P fid : String) :
    (setupConnection s P fid).conversations = s.conversations ++
      [{ id := fid
         title := "Chat with " ++ P.take 6 ++ "..."
         peerId := P
         messages := [] }] ∧
    (setupConnection s P fid).activeConversationId = some fid :=
  ⟨rfl, rfl⟩

/-- C10: deleting a conversation never touches the connection registry: the
handle registered under the conversation's peerId (and every other handle)
is still registered afterwards. -/
theorem delete_preserves_connection_registry (s : AppState) (cid : String) :
    (deleteConversation s cid).connections = s.connections := by
  unfold deleteConversation
  split
  · split <;> rfl
  · rfl

/-- C7: when a conversation is active but no connection handle is registered
under its peerId, `sendMessage` is a silent no-op: the state is returned
unchanged, so nothing is transmitted, no message is appended, the composition
buffer keeps its contents, and no error message is set. -/
theorem send_without_handle_is_noop (s : AppState) (conv : Conversation)
    (htruthy : truthy s.activeConversationId = true)
    (hfind : activeConversation s = some conv)
    (hconn : s.connections.contains conv.peerId = false) :
    sendMessage s = some s := by
  have hmem : conv.peerId ∉ s.connections := by simpa using hconn
  unfold sendMessage
  rw [htruthy, hfind]
  simp [hmem]

/-- Witness for C7: in the state with an active B2 conversation but an empty
registry, sending changes nothing. -/
theorem send_without_handle_is_noop_w :
    sendMessage stateBNoConn = some stateBNoConn :=
  send_without_handle_is_noop stateBNoConn convB (by decide) (by decide)
    (by decide)

/-- C4: in a state whose active conversation exists (`cid` truthy and the
list splits as `l1 ++ conv :: l2` with `conv` the first conversation with
that id), whose peerId has a registered handle, and whose composition buffer
is non-empty, `sendMessage` transmits the buffer to that peer, appends
exactly one `Message` with sender `"You"` and content equal to the buffer to
the active conversation, clears the buffer, and leaves every other
conversation (all of `l1` and `l2`) and all remaining state fields
unchanged. -/
theorem send_appends_to_active (s : AppState) (cid : String)
    (l1 l2 : List Conversation) (conv : Conversation)
    (hact : s.activeConversationId = some cid)
    (hcid : cid ≠ "")
    (hsplit : s.conversations = l1 ++ conv :: l2)
    (hl1 : ∀ c ∈ l1, c.id ≠ cid)
    (hconv : conv.id = cid)
    (hconn : s.connections.contains conv.peerId = true)
    (hmsg : s.message ≠ "") :
    sendMessage s = some { s with
      sent := s.sent ++ [(conv.peerId, s.message)]
      conversations := l1 ++
        { conv with messages :=
          conv.messages ++ [{ sender := "You", content := s.message }] } :: l2
      message := "" } := by
  have htruthy : truthy s.activeConversationId = true := by
    rw [hact]
    simp [truthy, hcid]
  have hfind : activeConversation s = some conv := by
    unfold activeConversation
    rw [hsplit]
    refine find_first_of_split _ l1 l2 conv ?_ ?_
    · intro c hc
      rw [hact]
      simp [hl1 c hc]
    · rw [hact]
      simp [hconv]
  have happly : applyToFirst s.conversations
      (fun c => some c.id == s.activeConversationId)
      (fun c => { c with messages :=
        c.messages ++ [{ sender := "You", content := s.message }] }) =
      l1 ++ { conv with messages :=
        conv.messages ++ [{ sender := "You", content := s.message }] } :: l2 := by
    rw [hsplit]
    refine applyToFirst_split _ _ l1 l2 conv ?_ ?_
    · intro c hc
      rw [hact]
      simp [hl1 c hc]
    · rw [hact]
      simp [hconv]
  have hbne : (s.message != "") = true := by simp [hmsg]
  unfold sendMessage
  rw [htruthy, hfind]
  simp only [hconn, hbne, if_true, happly]

/-- Witness for C4: sending "Hello" in the state with the single active B2
conversation and a registered handle appends the message and clears the
buffer. -/
theorem send_appends_to_active_w :
    sendMessage stateB = some { stateB with
      sent := [("B2", "Hello")]
      conversations :=
        [{ convB with messages := [{ sender := "You", content := "Hello" }] }]
      message := "" } :=
  send_appends_to_active stateB "u1" [] [] convB rfl (by decide) rfl
    (by simp) rfl (by decide) (by decide)

/-- C5: an inbound data event carrying (P, t) appends
`{ sender := "Remote", content := t }` only to the first conversation whose
peerId equals P (first conjunct of the second clause: the prefix `l1`
contains no conversation with peerId P and `conv.peerId = P`); when no
conversation with peerId P exists, the entire state — conversations and
activeConversationId included — is unchanged and no conversation is
auto-created. -/
theorem inbound_data_routing (s : AppState) (P t : String) :
    ((∀ c ∈ s.conversations, c.peerId ≠ P) → inboundData s P t = s) ∧
    (∀ l1 l2 : List Conversation, ∀ conv : Conversation,
      s.conversations = l1 ++ conv :: l2 →
      (∀ c ∈ l1, c.peerId ≠ P) →
      conv.peerId = P →
      inboundData s P t = { s with conversations :=
        l1 ++ { conv with messages :=
          conv.messages ++ [{ sender := "Remote", content := t }] } :: l2 }) := by
  constructor
  · intro hnone
    unfold inboundData
    rw [applyToFirst_no_match _ _ _ (fun c hc => by simp [hnone c hc])]
  · intro l1 l2 conv hsplit hl1 hP
    unfold inboundData
    rw [hsplit]
    rw [applyToFirst_split _ _ l1 l2 conv (fun c hc => by simp [hl1 c hc])
      (by simp [hP])]

/-- Witness for C5: in the state with one B2 conversation, data from the
unknown peer Z9 is dropped with the state unchanged, while data from B2 is
appended to the B2 conversation. -/
theorem inbound_data_routing_w :
    inboundData stateB "Z9" "hi" = stateB ∧
    inboundData stateB "B2" "hi" = { stateB with conversations :=
      [{ convB with messages := [{ sender := "Remote", content := "hi" }] }] } :=
  ⟨(inbound_data_routing stateB "Z9" "hi").1 (by decide),
   (inbound_data_routing stateB "B2" "hi").2 [] [] convB rfl (by simp) rfl⟩

/-- C6: deleting the id of the active conversation (present in the list,
splitting as `l1 ++ conv :: l2` with `conv` the first conversation with that
id) removes exactly that record, and the new `activeConversationId` is the
id of the first remaining conversation in the current ordering, or `null`
when no conversation remains. -/
theorem delete_active_conversation (s : AppState) (cid : String)
    (l1 l2 : List Conversation) (conv : Conversation)
    (hsplit : s.conversations = l1 ++ conv :: l2)
    (hl1 : ∀ c ∈ l1, c.id ≠ cid)
    (hconv : conv.id = cid)
    (hact : s.activeConversationId = some cid) :
    deleteConversation s cid = { s with
      conversations := l1 ++ l2
      activeConversationId :=
        match l1 ++ l2 with
        | [] => none
        | c :: _ => some c.id } := by
  have hany : s.conversations.any (fun c => c.id == cid) = true := by
    rw [hsplit]
    refine List.any_eq_true.mpr ⟨conv, ?_, by simp [hconv]⟩
    simp
  have hrem : removeFirst s.conversations cid = l1 ++ l2 := by
    rw [hsplit]
    exact removeFirst_split l1 l2 conv cid hl1 hconv
  unfold deleteConversation
  rw [hany]
  simp only [if_true, hact, if_pos rfl, hrem]

/-- Witness for C6: deleting the lone active B2 conversation empties the
list and sets the active id to none. -/
theorem delete_active_conversation_w :
    deleteConversation stateB "u1" = { stateB with
      conversations := []
      activeConversationId := none } :=
  delete_active_conversation stateB "u1" [] [] convB rfl (by simp) rfl rfl

/-- C2 counterexample: two connection setups from the same remote peer B2
produce a reachable state with two open conversations sharing peerId "B2",
so peerId uniqueness is not an invariant of the code. -/
theorem peer_ids_unique_cex :
    run initialState [Op.inboundConn "B2" "u1", Op.inboundConn "B2" "u2"] =
      some (setupConnection (setupConnection initialState "B2" "u1") "B2" "u2") ∧
    ¬ (convPeerIds
        (setupConnection (setupConnection initialState "B2" "u1") "B2" "u2")).Nodup := by
  exact ⟨by decide, by decide⟩

/-- C2 amended: for every sequence of operations from the empty state in
which no connection setup (inbound, or via connect) targets a peer that
already has an open conversation, no two conversations in the store have the
same peerId; every other operation preserves peerId uniqueness
unconditionally. -/
theorem peer_ids_unique_of_fresh_setups (ops : List Op) (s' : AppState)
    (h : runFresh initialState ops = some s') : (convPeerIds s').Nodup :=
  runFresh_nodup ops initialState s' (by simp [convPeerIds, initialState]) h

/-- Witness for amended C2: setting up connections with the two distinct
peers B2 and C3 yields distinct peerIds. -/
theorem peer_ids_unique_of_fresh_setups_w :
    (convPeerIds
      (setupConnection (setupConnection initialState "B2" "u1") "C3" "u2")).Nodup :=
  peer_ids_unique_of_fresh_setups
    [Op.inboundConn "B2" "u1", Op.inboundConn "C3" "u2"] _ (by decide)

/-- C3 counterexample: from the state with local id A1 and target B2, the
connect action alone — with no transport readiness event having fired —
already creates and activates the new conversation; the handle-ready event
itself (for which App.vue registers no handler) changes nothing.  So the
conversation is created before, not upon, the transport signaling
readiness. -/
theorem connect_before_ready_cex :
    (connect connDemoState "u1").conversations =
      [{ id := "u1", title := "Chat with B2...", peerId := "B2",
         messages := [] }] ∧
    (connect connDemoState "u1").activeConversationId = some "u1" ∧
    connDemoState.conversations = [] ∧
    handleOpen (connect connDemoState "u1") "B2" = connect connDemoState "u1" := by
  exact ⟨by decide, by decide, by decide, rfl⟩

/-- C3 amended: for every connect action whose target peer id is non-empty
and differs from the local id, the transport connection is initiated
(recorded in `connectCalls`) and the new conversation is created and
activated immediately and synchronously with the connect action, without
waiting for the transport to signal readiness. -/
theorem connect_creates_immediately (s : AppState) (fid : String)
    (hne : s.remotePeerId ≠ "")
    (hself : s.remotePeerId ≠ s.peerId) :
    (connect s fid).connectCalls = s.connectCalls ++ [s.remotePeerId] ∧
    (connect s fid).conversations = s.conversations ++
      [{ id := fid
         title := "Chat with " ++ s.remotePeerId.take 6 ++ "..."
         peerId := s.remotePeerId
         messages := [] }] ∧
    (connect s fid).activeConversationId = some fid := by
  unfold connect
  rw [if_pos hne, if_neg hself]
  exact ⟨rfl, rfl, rfl⟩

/-- Witness for amended C3: connecting from A1 to B2 records the transport
call and immediately opens and activates the conversation. -/
theorem connect_creates_immediately_w :
    (connect connDemoState "u1").connectCalls = ["B2"] ∧
    (connect connDemoState "u1").conversations =
      [{ id := "u1", title := "Chat with B2...", peerId := "B2",
         messages := [] }] ∧
    (connect connDemoState "u1").activeConversationId = some "u1" :=
  connect_creates_immediately connDemoState "u1" (by decide) (by decide)

/-- C8 counterexample: in the initial state both the typed target and the
local id are the empty string, so they are equal, yet connect is a complete
no-op: no error message becomes visible and no clearing timeout is
scheduled — the claim's guard must additionally require the typed target to
be non-empty. -/
theorem self_connect_empty_cex :
    initialState.remotePeerId = initialState.peerId ∧
    connect initialState "u1" = initialState ∧
    (connect initialState "u1").errorMessage = "" ∧
    (connect initialState "u1").pendingTimeouts = [] := by
  exact ⟨rfl, by decide, by decide, by decide⟩

/-- C8 amended: for every connect action where the typed remote peer id is
non-empty and equals the local peer id, the visible error message is set, a
3000 ms timeout that will clear it is scheduled, no transport connection is
initiated, and no conversation is created: conversations,
activeConversationId, connectCalls and the registry are all unchanged. -/
theorem self_connect_rejected (s : AppState) (fid : String)
    (hne : s.remotePeerId ≠ "")
    (heq : s.remotePeerId = s.peerId) :
    (connect s fid).errorMessage = "You can't connect to yourself!" ∧
    (connect s fid).pendingTimeouts = s.pendingTimeouts ++ [3000] ∧
    (connect s fid).conversations = s.conversations ∧
    (connect s fid).activeConversationId = s.activeConversationId ∧
    (connect s fid).connectCalls = s.connectCalls ∧
    (connect s fid).connections = s.connections := by
  unfold connect
  rw [if_pos hne, if_pos heq]
  exact ⟨rfl, rfl, rfl, rfl, rfl, rfl⟩

/-- Witness for amended C8: with local id A1 and target A1, connect sets the
error, schedules its clearing, and creates nothing. -/
theorem self_connect_rejected_w :
    (connect selfDemoState "u1").errorMessage = "You can't connect to yourself!" ∧
    (connect selfDemoState "u1").pendingTimeouts = [3000] ∧
    (connect selfDemoState "u1").conversations = [] ∧
    (connect selfDemoState "u1").activeConversationId = none ∧
    (connect selfDemoState "u1").connectCalls = [] ∧
    (connect selfDemoState "u1").connections = [] :=
  self_connect_rejected selfDemoState "u1" (by decide) rfl
